import Mathlib

/-!
Shallow embedding of `src/Pyradiomics.py` (PyRadical).

The program is a Tk-driven batch runner for the PyRadiomics feature
extractor.  The parts relevant to the frozen claims are embedded as
executable Lean definitions:

* Python string helpers (`str.strip`, `str.split` with a one-character
  separator, text-file line iteration) are modelled on `List Char`.
* `dict_from_file`, `get_parameter_value`, `date_today`,
  `verbose_output_location` and `resolve_target_filepath` follow the
  source functions of the same names.
* The participant-by-mask extraction loop of `main` (source lines
  315-385) is modelled by `processMask` / `processMasks` /
  `processParticipant` / `runLoop` over an explicit store of
  output-file contents; the external extractor is an opaque function
  field of the environment, and the filesystem seen by the resolver is
  a directory listing plus an existence predicate.

Conventions: a Python `dict` is an insertion-ordered association list
with overwrite-in-place semantics; an uncaught Python exception is an
`Except.error`; `exit(3)` is the `ResolveResult.exitCode 3` outcome,
which the loop model propagates as `Except.error 3`.
-/

/-! ### Python string primitives -/

/-- The whitespace characters stripped by Python `str.strip()`
(space, tab, newline, carriage return, vertical tab, form feed;
ASCII scope). -/
def isPySpace (c : Char) : Bool :=
  c = ' ' || c = '\t' || c = '\n' || c = '\r' ||
    c = Char.ofNat 11 || c = Char.ofNat 12

/-- Python `s.strip()`: drop leading and trailing whitespace. -/
def pyStrip (s : String) : String :=
  ⟨((s.data.dropWhile isPySpace).reverse.dropWhile isPySpace).reverse⟩

/-- Python `s.startswith(pre)`, on the character sequences. -/
def pyStartsWith (s pre : String) : Bool :=
  pre.data.isPrefixOf s.data

/-- Python `s.endswith(suf)` (used by the `os.path.join` model). -/
def pyEndsWith (s suf : String) : Bool :=
  suf.data.isSuffixOf s.data

/-- Worker for `splitCh`: accumulates the current field (reversed). -/
def splitChAux (sep : Char) : List Char → List Char → List String
  | [], acc => [⟨acc.reverse⟩]
  | c :: rest, acc =>
    if c = sep then ⟨acc.reverse⟩ :: splitChAux sep rest []
    else splitChAux sep rest (c :: acc)

/-- Python `s.split(sep)` for a one-character separator (the program
only ever passes `':'`).  Empty fields are kept, as in Python. -/
def splitCh (sep : Char) (s : String) : List String :=
  splitChAux sep s.data []

/-- Worker for `splitLinesPy`. -/
def splitLinesAux : List Char → List Char → List String
  | [], [] => []
  | [], acc => [⟨acc.reverse⟩]
  | c :: rest, acc =>
    if c = '\n' then ⟨('\n' :: acc).reverse⟩ :: splitLinesAux rest []
    else splitLinesAux rest (c :: acc)

/-- Python text-file line iteration (`for line in fptr`): each line
keeps its trailing `'\n'`; a trailing newline does not produce an
extra empty line. -/
def splitLinesPy (s : String) : List String :=
  splitLinesAux s.data []

/-- Digit tail of a Python integer literal: `('_'? digit)*`, i.e.
single underscores are allowed between digits only.  Returns the
digit characters. -/
def pyDigitsAux : List Char → Option (List Char)
  | [] => some []
  | ['_'] => none
  | '_' :: c :: rest =>
    if c.isDigit then (pyDigitsAux rest).map (c :: ·) else none
  | c :: rest =>
    if c.isDigit then (pyDigitsAux rest).map (c :: ·) else none

/-- Nonempty digit run starting with a digit (not an underscore). -/
def pyNatDigits : List Char → Option (List Char)
  | [] => none
  | c :: rest =>
    if c.isDigit then (pyDigitsAux rest).map (c :: ·) else none

/-- Numeric value of a digit-character list. -/
def natOfDigits (ds : List Char) : Nat :=
  ds.foldl (fun n c => 10 * n + (c.toNat - 48)) 0

/-- Python `int(s)` for a decimal string: surrounding whitespace is
stripped, an optional single sign is allowed, then digits with
optional single underscores between them.  `none` models the
`ValueError` raised on any other input. -/
def pyInt (s : String) : Option Int :=
  match (pyStrip s).data with
  | '-' :: rest => (pyNatDigits rest).map (fun ds => -(natOfDigits ds : Int))
  | '+' :: rest => (pyNatDigits rest).map (fun ds => (natOfDigits ds : Int))
  | rest => (pyNatDigits rest).map (fun ds => (natOfDigits ds : Int))

/-! ### The mask-values dictionary (`dict_from_file`, source lines 93-103) -/

/-- A Python `dict` from `int` to `str`: insertion-ordered association
list with unique keys. -/
abbrev MaskDict := List (Int × String)

/-- `values[k] = v`: overwrite in place if the key is present
(keeping its position, as Python dicts do), else append. -/
def dictInsert : MaskDict → Int → String → MaskDict
  | [], k, v => [(k, v)]
  | e :: rest, k, v =>
    if e.1 = k then (k, v) :: rest else e :: dictInsert rest k v

/-- `values.get(k)`: first (hence unique) binding of `k`. -/
def dictGet : MaskDict → Int → Option String
  | [], _ => none
  | e :: rest, k => if e.1 = k then some e.2 else dictGet rest k

/-- One line of the mask-values file:
`key, value = line.split(separator)` (a `ValueError` — `none` — unless
the split has exactly two fields), then `values[int(key.strip())] =
value.strip()` (a `ValueError` — `none` — if the key is not an
integer literal). -/
def parseLine (sep : Char) (line : String) : Option (Int × String) :=
  match splitCh sep line with
  | [k, v] =>
    match pyInt (pyStrip k) with
    | some ki => some (ki, pyStrip v)
    | none => none
  | _ => none

/-- The line loop of `dict_from_file`; `Except.error ()` models the
uncaught `ValueError` escaping the function. -/
def dictFromLines (sep : Char) : List String → MaskDict → Except Unit MaskDict
  | [], m => .ok m
  | l :: ls, m =>
    match parseLine sep l with
    | some kv => dictFromLines sep ls (dictInsert m kv.1 kv.2)
    | none => .error ()

/-- `dict_from_file(filepath, separator)` applied to the text content
of the file at `filepath`. -/
def dict_from_file (content : String) (sep : Char) : Except Unit MaskDict :=
  dictFromLines sep (splitLinesPy content) []

/-- Last binding of key `k` among the parsed `(key, value)` pairs of a
file, in file order — the specification-side description of the
"later lines overwrite earlier ones" behaviour. -/
def lastBinding (ps : List (Int × String)) (k : Int) : Option String :=
  (ps.reverse.find? (fun kv => kv.1 == k)).map Prod.snd

/-! ### Parameter-file lookup (`get_parameter_value`, source lines 112-125) -/

/-- String-keyed association-list lookup (a loaded YAML mapping). -/
def alookup {α : Type} : List (String × α) → String → Option α
  | [], _ => none
  | e :: rest, k => if e.1 = k then some e.2 else alookup rest k

/-- The loaded parameter YAML document, to the depth this program
reads it: a mapping from section name to a mapping from field name to
an integer value (the one field read is `setting.binWidth`). -/
abbrev ParamData := List (String × List (String × Int))

/-- `get_parameter_value(path, setting, field)`:
`data[setting][field]` with `KeyError` caught — a missing key prints a
diagnostic and returns Python `None`, modelled as `none`.  A present
key returns its value. -/
def get_parameter_value (data : ParamData) (setting fieldName : String) : Option Int :=
  match alookup data setting with
  | none => none
  | some sub =>
    match alookup sub fieldName with
    | none => none
    | some v => some v

/-! ### Dates and paths -/

/-- A calendar date (for `date.today()`, which the embedding passes in
explicitly since it is ambient input). -/
structure Date where
  year : Nat
  month : Nat
  day : Nat

/-- `strftime("%B")` month names. -/
def monthName : Nat → String
  | 1 => "January"
  | 2 => "February"
  | 3 => "March"
  | 4 => "April"
  | 5 => "May"
  | 6 => "June"
  | 7 => "July"
  | 8 => "August"
  | 9 => "September"
  | 10 => "October"
  | 11 => "November"
  | 12 => "December"
  | _ => ""

/-- `strftime("%d")`: zero-padded two-digit day. -/
def pad2 (n : Nat) : String :=
  if n < 10 then "0" ++ toString n else toString n

/-- `date_today()`: `date.today().strftime("%d-%B-%Y")`, with the
ambient clock made an explicit argument. -/
def date_today (d : Date) : String :=
  pad2 d.day ++ "-" ++ monthName d.month ++ "-" ++ toString d.year

/-- POSIX `os.path.join` on two components: an absolute second
component replaces the first; otherwise a single `/` is inserted
unless the first component is empty or already ends in `/`. -/
def pathJoin (a b : String) : String :=
  if pyStartsWith b "/" then b
  else if a = "" then b
  else if pyEndsWith a "/" then a ++ b
  else a ++ "/" ++ b

/-- Python `str(x)` for the bin width read from the parameter file:
`None` prints as `"None"`. -/
def pyStr : Option Int → String
  | some n => toString n
  | none => "None"

/-- `verbose_output_location(where, parameters)` (source lines
192-196): joins the base output path with
`"<date>_BinWidth_<binwidth>"`. -/
def verbose_output_location (whereBase : String) (params : ParamData) (today : Date) : String :=
  pathJoin whereBase
    (date_today today ++ "_BinWidth_" ++ pyStr (get_parameter_value params "setting" "binWidth"))

/-! ### Filename resolver (`resolve_target_filepath`, source lines 133-157) -/

/-- One entry of a directory listing, tagged with whether
`os.path.isdir` holds for it. -/
structure Entry where
  name : String
  isDir : Bool
deriving DecidableEq

/-- The filesystem as the resolver observes it: `os.listdir` and
`os.path.exists`. -/
structure FS where
  listdir : String → List Entry
  pathExists : String → Bool

/-- Outcome of `resolve_target_filepath`: `(True, fullpath)`,
`(False, "")`, or process termination via `exit(3)`. -/
inductive ResolveResult where
  | found : String → ResolveResult
  | notFound : ResolveResult
  | exitCode : Nat → ResolveResult
deriving DecidableEq

/-- Is the outcome the fatal `exit` path? -/
def ResolveResult.isExit : ResolveResult → Bool
  | .exitCode _ => true
  | _ => false

/-- `next(filter(lambda file: file.startswith(prefix + ID), files), None)`
over `files`, the non-directory entries of `dir`; a `None` prefix
is replaced by the empty string first. -/
def firstMatch (fs : FS) (dir : String) (pfx : Option String) (ID : String) : Option String :=
  let p := pfx.getD ""
  let files := ((fs.listdir dir).filter (fun e => !e.isDir)).map Entry.name
  files.find? (fun f => pyStartsWith f (p ++ ID))

/-- `resolve_target_filepath(path, prefix, ID)`: first matching
non-directory entry, re-checked for existence; a vanished match is
`exit(3)`, no match is `(False, "")`. -/
def resolve_target_filepath (fs : FS) (dir : String) (pfx : Option String) (ID : String) : ResolveResult :=
  match firstMatch fs dir pfx ID with
  | some target =>
    let fullpath := pathJoin dir target
    if fs.pathExists fullpath then .found fullpath else .exitCode 3
  | none => .notFound

/-! ### The extraction loop of `main` (source lines 315-385) -/

/-- The on-disk output files touched by the loop: an association list
from file path to current text content.  The initial store holds the
feature files left by previous runs. -/
abbrev Store := List (String × String)

/-- Content of the file at `p`, if it exists. -/
def storeGet : Store → String → Option String
  | [], _ => none
  | e :: rest, p => if e.1 = p then some e.2 else storeGet rest p

/-- `open(p, 'a')` followed by writing `text`: append to an existing
file, or create it with `text` as content. -/
def storeAppend : Store → String → String → Store
  | [], p, text => [(p, text)]
  | e :: rest, p, text =>
    if e.1 = p then (e.1, e.2 ++ text) :: rest
    else e :: storeAppend rest p text

/-- One `extractor.execute(T1_path, ROI_path, label = index)` call
recorded for the trace: `(T1 path, ROI path, label index)`. -/
abbrev Call := String × String × Int

/-- The fixed inputs of one run of `main`'s loop. -/
structure Env where
  fs : FS
  regions : String
  volumes : String
  regionPfx : Option String
  volPfx : Option String
  extractor : String → String → Int → Except String (List (String × String))

/-- `os.path.join(output_location, f"<ppt>_Features", f"<ppt>_FeatureValues.txt")`
(source line 330). -/
def featurePath (outLoc ppt : String) : String :=
  pathJoin (pathJoin outLoc (ppt ++ "_Features")) (ppt ++ "_FeatureValues.txt")

/-- Text appended on extractor success (source lines 375-379): the
three sequential writes to the same append-mode handle — header,
one fragment per feature pair in result order, sentinel. -/
def successText (maskName : String) (idx : Int) (feats : List (String × String)) : String :=
  ("\n" ++ "$[" ++ maskName ++ ":" ++ toString idx ++ "]")
    ++ feats.foldl (fun acc fv => acc ++ ("\n" ++ fv.1 ++ ":" ++ fv.2)) ""
    ++ ("\n" ++ "MASKBREAK" ++ "\n")

/-- Text appended on a `ValueError` from the extractor (source line
366). -/
def errorText (maskName : String) (idx : Int) (msg : String) : String :=
  "\n" ++ "$MASKERROR[" ++ maskName ++ ":" ++ toString idx ++ "] " ++ msg ++ "\n"

/-- One iteration of the inner mask loop (source lines 349-384) for
the pair `(index, mask_values[index])`: run the extractor and append
either the feature block or the error marker to the feature file. -/
def processMask (env : Env) (T1path ROIpath fp : String) (σ : Store) (m : Int × String) : Store :=
  match env.extractor T1path ROIpath m.1 with
  | .error msg => storeAppend σ fp (errorText m.2 m.1 msg)
  | .ok feats => storeAppend σ fp (successText m.2 m.1 feats)

/-- The inner mask loop over the dict items in insertion order, also
returning the trace of extractor invocations made. -/
def processMasks (env : Env) (T1path ROIpath fp : String) : List (Int × String) → Store → Store × List Call
  | [], σ => (σ, [])
  | m :: rest, σ =>
    let σ1 := processMask env T1path ROIpath fp σ m
    let out := processMasks env T1path ROIpath fp rest σ1
    (out.1, (T1path, ROIpath, m.1) :: out.2)

/-- One iteration of the participant loop (source lines 315-384):
resolve the ROI file, then the volume file (either resolution may
terminate the process, source lines 317-318); skip the participant on
a missing input (lines 322-327) or an already-existing feature file
(lines 336-339); otherwise run the mask loop.  `Except.error c`
models `exit(c)` escaping the run. -/
def processParticipant (env : Env) (outLoc : String) (masks : List (Int × String)) (σ : Store) (ppt : String) : Except Nat (Store × List Call) :=
  match resolve_target_filepath env.fs env.regions env.regionPfx ppt,
        resolve_target_filepath env.fs env.volumes env.volPfx ppt with
  | .exitCode c, _ => .error c
  | .notFound, .exitCode c => .error c
  | .found _, .exitCode c => .error c
  | .notFound, _ => .ok (σ, [])
  | .found _, .notFound => .ok (σ, [])
  | .found ROIpath, .found T1path =>
    let fp := featurePath outLoc ppt
    if (storeGet σ fp).isSome then .ok (σ, [])
    else .ok (processMasks env T1path ROIpath fp masks σ)

/-- The whole extraction loop over the participant ID list. -/
def runLoop (env : Env) (outLoc : String) (masks : List (Int × String)) : List String → Store → Except Nat (Store × List Call)
  | [], σ => .ok (σ, [])
  | ppt :: rest, σ =>
    match processParticipant env outLoc masks σ ppt with
    | .error c => .error c
    | .ok s1 =>
      match runLoop env outLoc masks rest s1.1 with
      | .error c => .error c
      | .ok s2 => .ok (s2.1, s1.2 ++ s2.2)

/-! ### Specification-side line descriptions -/

/-- The text whose lines are exactly `ls`, in order. -/
def joinLines : List String → String
  | [] => ""
  | [l] => l
  | l :: ls => l ++ "\n" ++ joinLines ls

/-- The `$[name:index]` section header line. -/
def sectionHeader (maskName : String) (idx : Int) : String :=
  "$[" ++ maskName ++ ":" ++ toString idx ++ "]"

/-- One `feature:value` line. -/
def featLine (fv : String × String) : String :=
  fv.1 ++ ":" ++ fv.2

/-- The `$MASKERROR[name:index] <message>` line. -/
def maskErrorLine (maskName : String) (idx : Int) (msg : String) : String :=
  "$MASKERROR[" ++ maskName ++ ":" ++ toString idx ++ "] " ++ msg

/-! ### Concrete instances used by the witnesses -/

/-- An extractor that succeeds on label 1 and reports a degenerate
mask on every other label. -/
def exExtractor : String → String → Int → Except String (List (String × String)) :=
  fun _ _ i => if i = 1 then .ok [("f1", "0.5")] else .error "mask too small"

/-- A filesystem holding one ROI file and one volume file for
participant `sub-01`. -/
def exFS : FS :=
  ⟨fun p =>
    if p = "/roi" then [⟨"sub-01_roi.nii", false⟩]
    else if p = "/vol" then [⟨"sub-01_T1.nii", false⟩]
    else [],
   fun p => p == "/roi/sub-01_roi.nii" || p == "/vol/sub-01_T1.nii"⟩

/-- The loop environment over `exFS` with empty filename prefixes. -/
def exEnv : Env := ⟨exFS, "/roi", "/vol", some "", some "", exExtractor⟩

/-- A directory `/d` containing exactly the file `sub-01_T1.nii`. -/
def exDirFS : FS :=
  ⟨fun p => if p = "/d" then [⟨"sub-01_T1.nii", false⟩] else [],
   fun p => p == "/d/sub-01_T1.nii"⟩

/-- A directory `/d` whose only entry named like a match for `sub-03`
is itself a directory. -/
def exDirOnlyFS : FS :=
  ⟨fun p => if p = "/d" then [⟨"sub-03_T1.nii", true⟩] else [],
   fun _ => true⟩

/-- A filesystem whose listing shows `sub-01_roi.nii` under `/roi`
while the existence re-check fails for every path. -/
def ghostFS : FS :=
  ⟨fun p => if p = "/roi" then [⟨"sub-01_roi.nii", false⟩] else [],
   fun _ => false⟩

/-- An environment in which `sub-01` has a volume file but no ROI
file. -/
def missEnv : Env :=
  ⟨⟨fun p => if p = "/vol" then [⟨"sub-01_T1.nii", false⟩] else [],
    fun p => p == "/vol/sub-01_T1.nii"⟩,
   "/roi", "/vol", some "", some "", exExtractor⟩

/-- The output store after one run of `runLoop exEnv "/out" [(1, "amy")]
["sub-01"]` from an empty store. -/
def exRunStore : Store :=
  [("/out/sub-01_Features/sub-01_FeatureValues.txt",
    "\n$[amy:1]\nf1:0.5\nMASKBREAK\n")]

/-! ### Store lemmas -/

theorem storeGet_append_self (σ : Store) (p t : String) :
    storeGet (storeAppend σ p t) p = some ((storeGet σ p).getD "" ++ t) := by
  induction σ with
  | nil => simp [storeAppend, storeGet]
  | cons e rest ih =>
    by_cases h : e.1 = p
    · simp [storeAppend, storeGet, h]
    · simp [storeAppend, storeGet, h, ih]

theorem storeGet_append_ne (σ : Store) (p t q : String) (h : q ≠ p) :
    storeGet (storeAppend σ p t) q = storeGet σ q := by
  induction σ with
  | nil => simp [storeAppend, storeGet, Ne.symm h]
  | cons e rest ih =>
    by_cases he : e.1 = p
    · simp [storeAppend, storeGet, he, Ne.symm h, h]
    · by_cases hq : e.1 = q
      · simp [storeAppend, storeGet, he, hq, h]
      · simp [storeAppend, storeGet, he, hq, ih]

theorem isSome_storeGet_append_self (σ : Store) (p t : String) :
    (storeGet (storeAppend σ p t) p).isSome := by
  simp [storeGet_append_self]

theorem isSome_storeGet_append (σ : Store) (p t q : String)
    (h : (storeGet σ q).isSome) : (storeGet (storeAppend σ p t) q).isSome := by
  by_cases hq : q = p
  · subst hq; exact isSome_storeGet_append_self σ q t
  · rw [storeGet_append_ne σ p t q hq]; exact h

/-! ### Dictionary lemmas -/

theorem dictGet_insert (m : MaskDict) (k : Int) (v : String) (k' : Int) :
    dictGet (dictInsert m k v) k' = if k' = k then some v else dictGet m k' := by
  induction m with
  | nil =>
    by_cases h : k' = k
    · simp [dictInsert, dictGet, h]
    · simp [dictInsert, dictGet, h, Ne.symm h]
  | cons e rest ih =>
    by_cases he : e.1 = k
    · by_cases h : k' = k
      · simp [dictInsert, dictGet, he, h]
      · simp [dictInsert, dictGet, he, h, Ne.symm h]
    · by_cases h : e.1 = k'
      · have hkk : ¬ k' = k := fun hh => he (h.trans hh)
        simp [dictInsert, dictGet, he, h, hkk]
      · simp [dictInsert, dictGet, he, h, ih]

theorem lastBinding_cons (p : Int × String) (ps : List (Int × String)) (k : Int) :
    lastBinding (p :: ps) k
      = (lastBinding ps k).or (if p.1 == k then some p.2 else none) := by
  unfold lastBinding
  rw [List.reverse_cons, List.find?_append]
  cases h : List.find? (fun kv => kv.1 == k) ps.reverse with
  | none =>
    cases hk : p.1 == k with
    | true => simp [Option.or, List.find?, hk]
    | false => simp [Option.or, List.find?, hk]
  | some q => simp [Option.or, h]

theorem dictFromLines_get (sep : Char) :
    ∀ (ls : List String) (m0 m : MaskDict),
      dictFromLines sep ls m0 = .ok m →
      ∀ k, dictGet m k = (lastBinding (ls.filterMap (parseLine sep)) k).or (dictGet m0 k) := by
  intro ls
  induction ls with
  | nil =>
    intro m0 m h k
    simp [dictFromLines] at h
    subst h
    simp [lastBinding, Option.or]
  | cons l ls ih =>
    intro m0 m h k
    cases hp : parseLine sep l with
    | none => simp [dictFromLines, hp] at h
    | some kv =>
      simp only [dictFromLines, hp] at h
      have := ih (dictInsert m0 kv.1 kv.2) m h k
      rw [this, List.filterMap_cons, hp, lastBinding_cons, dictGet_insert]
      cases hb : lastBinding (ls.filterMap (parseLine sep)) k with
      | some v => simp [Option.or, hb]
      | none =>
        by_cases hk : k = kv.1
        · simp [Option.or, hb, hk]
        · simp [Option.or, hb, hk, Ne.symm hk]

theorem dictFromLines_ok (sep : Char) :
    ∀ (ls : List String) (m0 : MaskDict),
      (∀ l ∈ ls, (parseLine sep l).isSome) →
      ∃ m, dictFromLines sep ls m0 = .ok m := by
  intro ls
  induction ls with
  | nil => intro m0 _; exact ⟨m0, rfl⟩
  | cons l ls ih =>
    intro m0 h
    cases hp : parseLine sep l with
    | none =>
      have := h l (by simp)
      rw [hp] at this
      simp at this
    | some kv =>
      obtain ⟨m, hm⟩ := ih (dictInsert m0 kv.1 kv.2) (fun x hx => h x (by simp [hx]))
      exact ⟨m, by simpa [dictFromLines, hp] using hm⟩

theorem dictFromLines_error (sep : Char) :
    ∀ (ls : List String) (m0 : MaskDict),
      (∃ l ∈ ls, parseLine sep l = none) →
      dictFromLines sep ls m0 = .error () := by
  intro ls
  induction ls with
  | nil => intro m0 h; simp at h
  | cons l ls ih =>
    intro m0 h
    cases hp : parseLine sep l with
    | none => simp [dictFromLines, hp]
    | some kv =>
      obtain ⟨l', hl', hbad⟩ := h
      rcases List.mem_cons.mp hl' with heq | hl2
      · rw [heq, hp] at hbad; cases hbad
      · simp [dictFromLines, hp]
        exact ih (dictInsert m0 kv.1 kv.2) ⟨l', hl2, hbad⟩

theorem lastBinding_nodup (ps : List (Int × String)) (kv : Int × String)
    (hnd : (ps.map Prod.fst).Nodup) (hmem : kv ∈ ps) :
    lastBinding ps kv.1 = some kv.2 := by
  induction ps with
  | nil => cases hmem
  | cons p ps ih =>
    rw [List.map_cons, List.nodup_cons] at hnd
    rw [lastBinding_cons]
    rcases List.mem_cons.mp hmem with rfl | hmem'
    · have : lastBinding ps kv.1 = none := by
        unfold lastBinding
        rw [List.find?_eq_none.mpr]
        · rfl
        · intro q hq hbeq
          exact hnd.1 (by
            rw [List.mem_map]
            refine ⟨q, List.mem_reverse.mp hq, ?_⟩
            simpa using hbeq.symm)
      simp [this, Option.or]
    · rw [ih hnd.2 hmem']
      simp [Option.or]

/-! ### Line-structure lemmas -/

/-- The fragment sequence the success branch writes after the header:
one `"\n" ++ feature ++ ":" ++ value` fragment per pair. -/
def concatFrags : List (String × String) → String
  | [] => ""
  | fv :: rest => ("\n" ++ fv.1 ++ ":" ++ fv.2) ++ concatFrags rest

theorem joinLines_cons (x : String) (xs : List String) (h : xs ≠ []) :
    joinLines (x :: xs) = x ++ "\n" ++ joinLines xs := by
  cases xs with
  | nil => cases h rfl
  | cons y ys => rfl

theorem foldl_feats (feats : List (String × String)) :
    ∀ c : String,
      feats.foldl (fun acc fv => acc ++ ("\n" ++ fv.1 ++ ":" ++ fv.2)) c
        = c ++ concatFrags feats := by
  induction feats with
  | nil => intro c; simp [concatFrags]
  | cons fv rest ih =>
    intro c
    simp only [List.foldl_cons, concatFrags]
    rw [ih, String.append_assoc]

theorem joinLines_hdr (feats : List (String × String)) :
    ∀ hdr : String,
      joinLines (hdr :: feats.map featLine ++ ["MASKBREAK"])
        = hdr ++ concatFrags feats ++ ("\n" ++ "MASKBREAK") := by
  induction feats with
  | nil =>
    intro hdr
    show hdr ++ "\n" ++ joinLines ["MASKBREAK"] = hdr ++ concatFrags [] ++ ("\n" ++ "MASKBREAK")
    simp [joinLines, concatFrags, String.append_assoc]
  | cons fv rest ih =>
    intro hdr
    rw [List.map_cons, List.cons_append,
      joinLines_cons hdr (featLine fv :: rest.map featLine ++ ["MASKBREAK"]) (by simp),
      ih (featLine fv)]
    simp [featLine, concatFrags, String.append_assoc]

theorem successText_spec (n : String) (i : Int) (feats : List (String × String)) :
    successText n i feats
      = "\n" ++ joinLines (sectionHeader n i :: feats.map featLine ++ ["MASKBREAK"]) ++ "\n" := by
  rw [joinLines_hdr]
  unfold successText sectionHeader
  rw [foldl_feats, String.empty_append]
  simp only [String.append_assoc]

theorem errorText_spec (n : String) (i : Int) (msg : String) :
    errorText n i msg = "\n" ++ joinLines [maskErrorLine n i msg] ++ "\n" := by
  show errorText n i msg = "\n" ++ maskErrorLine n i msg ++ "\n"
  unfold errorText maskErrorLine
  simp only [String.append_assoc]

theorem maskErrorLine_ne_maskbreak (n : String) (i : Int) (msg : String) :
    maskErrorLine n i msg ≠ "MASKBREAK" := by
  intro h
  have hL : (maskErrorLine n i msg).data.head? = some '$' := rfl
  rw [h] at hL
  exact absurd hL (by decide)

theorem maskErrorLine_ne_header (n : String) (i : Int) (msg n2 : String) (i2 : Int) :
    maskErrorLine n i msg ≠ sectionHeader n2 i2 := by
  intro h
  have hL : ((maskErrorLine n i msg).data.drop 1).head? = some 'M' := rfl
  have hR : ((sectionHeader n2 i2).data.drop 1).head? = some '[' := rfl
  rw [h, hR] at hL
  exact absurd hL (by decide)

/-! ### Mask-loop lemmas -/

theorem processMask_self (env : Env) (T1path ROIpath fp : String) (σ : Store) (m : Int × String) :
    (storeGet (processMask env T1path ROIpath fp σ m) fp).isSome := by
  unfold processMask
  cases env.extractor T1path ROIpath m.1 with
  | error msg => exact isSome_storeGet_append_self σ fp _
  | ok feats => exact isSome_storeGet_append_self σ fp _

theorem processMask_mono (env : Env) (T1path ROIpath fp : String) (σ : Store) (m : Int × String)
    (q : String) (h : (storeGet σ q).isSome) :
    (storeGet (processMask env T1path ROIpath fp σ m) q).isSome := by
  unfold processMask
  cases env.extractor T1path ROIpath m.1 with
  | error msg => exact isSome_storeGet_append σ fp _ q h
  | ok feats => exact isSome_storeGet_append σ fp _ q h

theorem processMask_frame (env : Env) (T1path ROIpath fp : String) (σ : Store) (m : Int × String)
    (q : String) (h : q ≠ fp) :
    storeGet (processMask env T1path ROIpath fp σ m) q = storeGet σ q := by
  unfold processMask
  cases env.extractor T1path ROIpath m.1 with
  | error msg => exact storeGet_append_ne σ fp _ q h
  | ok feats => exact storeGet_append_ne σ fp _ q h

theorem processMasks_trace (env : Env) (T1path ROIpath fp : String) :
    ∀ (masks : List (Int × String)) (σ : Store),
      (processMasks env T1path ROIpath fp masks σ).2
        = masks.map (fun m => (T1path, ROIpath, m.1)) := by
  intro masks
  induction masks with
  | nil => intro σ; rfl
  | cons m rest ih => intro σ; simp [processMasks, ih]

theorem processMasks_mono (env : Env) (T1path ROIpath fp : String) :
    ∀ (masks : List (Int × String)) (σ : Store) (q : String),
      (storeGet σ q).isSome →
      (storeGet (processMasks env T1path ROIpath fp masks σ).1 q).isSome := by
  intro masks
  induction masks with
  | nil => intro σ q h; exact h
  | cons m rest ih =>
    intro σ q h
    exact ih _ q (processMask_mono env T1path ROIpath fp σ m q h)

theorem processMasks_self (env : Env) (T1path ROIpath fp : String)
    (m : Int × String) (rest : List (Int × String)) (σ : Store) :
    (storeGet (processMasks env T1path ROIpath fp (m :: rest) σ).1 fp).isSome := by
  show (storeGet (processMasks env T1path ROIpath fp rest
    (processMask env T1path ROIpath fp σ m)).1 fp).isSome
  exact processMasks_mono env T1path ROIpath fp rest _ fp
    (processMask_self env T1path ROIpath fp σ m)

/-! ### Participant-loop lemmas -/

theorem processParticipant_mono (env : Env) (outLoc : String) (masks : List (Int × String))
    (σ : Store) (ppt : String) (s1 : Store × List Call)
    (h : processParticipant env outLoc masks σ ppt = .ok s1)
    (q : String) (hq : (storeGet σ q).isSome) : (storeGet s1.1 q).isSome := by
  unfold processParticipant at h
  cases hR : resolve_target_filepath env.fs env.regions env.regionPfx ppt with
  | exitCode c => rw [hR] at h; cases h
  | notFound =>
    rw [hR] at h
    cases hT : resolve_target_filepath env.fs env.volumes env.volPfx ppt with
    | exitCode c => rw [hT] at h; cases h
    | notFound => rw [hT] at h; dsimp only at h; cases h; exact hq
    | found p => rw [hT] at h; dsimp only at h; cases h; exact hq
  | found pROI =>
    rw [hR] at h
    cases hT : resolve_target_filepath env.fs env.volumes env.volPfx ppt with
    | exitCode c => rw [hT] at h; cases h
    | notFound => rw [hT] at h; dsimp only at h; cases h; exact hq
    | found pT1 =>
      rw [hT] at h
      dsimp only at h
      by_cases hfp : (storeGet σ (featurePath outLoc ppt)).isSome
      · rw [if_pos hfp] at h; cases h; exact hq
      · rw [if_neg hfp] at h
        cases h
        exact processMasks_mono env pT1 pROI (featurePath outLoc ppt) masks σ q hq

theorem processParticipant_skip (env : Env) (outLoc : String) (masks : List (Int × String))
    (σ : Store) (ppt : String) (s1 : Store × List Call) (T : Store)
    (h : processParticipant env outLoc masks σ ppt = .ok s1)
    (hT : (storeGet T (featurePath outLoc ppt)).isSome) :
    processParticipant env outLoc masks T ppt = .ok (T, []) := by
  unfold processParticipant at h ⊢
  cases hR : resolve_target_filepath env.fs env.regions env.regionPfx ppt with
  | exitCode c => rw [hR] at h; cases h
  | notFound =>
    cases hT1 : resolve_target_filepath env.fs env.volumes env.volPfx ppt with
    | exitCode c => rw [hR, hT1] at h; dsimp only at h; cases h
    | notFound => rfl
    | found p => rfl
  | found pROI =>
    cases hT1 : resolve_target_filepath env.fs env.volumes env.volPfx ppt with
    | exitCode c => rw [hR, hT1] at h; dsimp only at h; cases h
    | notFound => rfl
    | found pT1 =>
      dsimp only
      rw [if_pos hT]

theorem processParticipant_revisit (env : Env) (outLoc : String) (masks : List (Int × String))
    (σ : Store) (ppt : String) (s1 : Store × List Call) (T : Store)
    (h : processParticipant env outLoc masks σ ppt = .ok s1)
    (hT : ∀ q, (storeGet s1.1 q).isSome → (storeGet T q).isSome) :
    processParticipant env outLoc masks T ppt = .ok (T, []) := by
  unfold processParticipant at h ⊢
  cases hR : resolve_target_filepath env.fs env.regions env.regionPfx ppt with
  | exitCode c => rw [hR] at h; cases h
  | notFound =>
    cases hT1 : resolve_target_filepath env.fs env.volumes env.volPfx ppt with
    | exitCode c => rw [hR, hT1] at h; dsimp only at h; cases h
    | notFound => rfl
    | found p => rfl
  | found pROI =>
    cases hT1 : resolve_target_filepath env.fs env.volumes env.volPfx ppt with
    | exitCode c => rw [hR, hT1] at h; dsimp only at h; cases h
    | notFound => rfl
    | found pT1 =>
      rw [hR, hT1] at h
      dsimp only at h ⊢
      by_cases hfp : (storeGet σ (featurePath outLoc ppt)).isSome
      · rw [if_pos hfp] at h
        cases h
        rw [if_pos (hT _ hfp)]
      · rw [if_neg hfp] at h
        cases h
        cases masks with
        | nil =>
          by_cases hfpT : (storeGet T (featurePath outLoc ppt)).isSome
          · rw [if_pos hfpT]
          · rw [if_neg hfpT]; rfl
        | cons m rest =>
          have hpresent : (storeGet T (featurePath outLoc ppt)).isSome :=
            hT _ (processMasks_self env pT1 pROI (featurePath outLoc ppt) m rest σ)
          rw [if_pos hpresent]

/-! ### Run-loop lemmas -/

theorem runLoop_mono (env : Env) (outLoc : String) (masks : List (Int × String)) :
    ∀ (ppts : List String) (σ : Store) (s : Store × List Call),
      runLoop env outLoc masks ppts σ = .ok s →
      ∀ q, (storeGet σ q).isSome → (storeGet s.1 q).isSome := by
  intro ppts
  induction ppts with
  | nil =>
    intro σ s h q hq
    cases h
    exact hq
  | cons ppt rest ih =>
    intro σ s h q hq
    unfold runLoop at h
    cases hp : processParticipant env outLoc masks σ ppt with
    | error c => rw [hp] at h; cases h
    | ok s1 =>
      rw [hp] at h
      dsimp only at h
      cases hr : runLoop env outLoc masks rest s1.1 with
      | error c => rw [hr] at h; cases h
      | ok s2 =>
        rw [hr] at h
        dsimp only at h
        cases h
        exact ih s1.1 s2 hr q (processParticipant_mono env outLoc masks σ ppt s1 hp q hq)

theorem runLoop_revisit (env : Env) (outLoc : String) (masks : List (Int × String)) :
    ∀ (ppts : List String) (σ : Store) (s : Store × List Call),
      runLoop env outLoc masks ppts σ = .ok s →
      ∀ T : Store, (∀ q, (storeGet s.1 q).isSome → (storeGet T q).isSome) →
      runLoop env outLoc masks ppts T = .ok (T, []) := by
  intro ppts
  induction ppts with
  | nil => intro σ s h T hT; rfl
  | cons ppt rest ih =>
    intro σ s h T hT
    unfold runLoop at h
    cases hp : processParticipant env outLoc masks σ ppt with
    | error c => rw [hp] at h; cases h
    | ok s1 =>
      rw [hp] at h
      dsimp only at h
      cases hr : runLoop env outLoc masks rest s1.1 with
      | error c => rw [hr] at h; cases h
      | ok s2 =>
        rw [hr] at h
        dsimp only at h
        cases h
        have hT1 : ∀ q, (storeGet s1.1 q).isSome → (storeGet T q).isSome :=
          fun q hq => hT q (runLoop_mono env outLoc masks rest s1.1 s2 hr q hq)
        have hstep := processParticipant_revisit env outLoc masks σ ppt s1 T hp hT1
        have hrest := ih s1.1 s2 hr T hT
        unfold runLoop
        rw [hstep]
        dsimp only
        rw [hrest]
        rfl

theorem runLoop_mem (env : Env) (outLoc : String) (masks : List (Int × String)) :
    ∀ (ppts : List String) (σ : Store) (s : Store × List Call) (ppt : String),
      runLoop env outLoc masks ppts σ = .ok s → ppt ∈ ppts →
      ∃ σa sa, processParticipant env outLoc masks σa ppt = .ok sa := by
  intro ppts
  induction ppts with
  | nil => intro σ s ppt _ hmem; cases hmem
  | cons p rest ih =>
    intro σ s ppt h hmem
    unfold runLoop at h
    cases hp : processParticipant env outLoc masks σ p with
    | error c => rw [hp] at h; cases h
    | ok s1 =>
      rw [hp] at h
      dsimp only at h
      cases hr : runLoop env outLoc masks rest s1.1 with
      | error c => rw [hr] at h; cases h
      | ok s2 =>
        rcases List.mem_cons.mp hmem with heq | hmem'
        · exact ⟨σ, s1, heq ▸ hp⟩
        · exact ih s1.1 s2 ppt hr hmem'

/-! ### Claim theorems -/

/-- C8: for every mask-values file in which each line is
`key<sep>value` (keys unique, per the data-model invariant), the
mapping parser succeeds and maps each key, parsed as an integer after
trimming, to its whitespace-trimmed value; in particular
`"1:amygdala\n14 : hippocampus\n"` with separator `':'` yields
`{1 : "amygdala", 14 : "hippocampus"}`. -/
theorem dict_from_file_wellformed (content : String) (sep : Char)
    (h1 : ∀ l ∈ splitLinesPy content, (parseLine sep l).isSome)
    (h2 : (((splitLinesPy content).filterMap (parseLine sep)).map Prod.fst).Nodup) :
    (∃ m, dict_from_file content sep = .ok m ∧
      ∀ kv ∈ (splitLinesPy content).filterMap (parseLine sep), dictGet m kv.1 = some kv.2)
    ∧ dict_from_file "1:amygdala\n14 : hippocampus\n" ':'
        = .ok [(1, "amygdala"), (14, "hippocampus")] := by
  constructor
  · obtain ⟨m, hm⟩ := dictFromLines_ok sep (splitLinesPy content) [] h1
    refine ⟨m, hm, ?_⟩
    intro kv hkv
    have hget := dictFromLines_get sep (splitLinesPy content) [] m hm kv.1
    rw [lastBinding_nodup _ kv h2 hkv] at hget
    exact hget
  · rfl

theorem dict_from_file_wellformed_witness :
    dict_from_file "1:amygdala\n14 : hippocampus\n" ':'
      = .ok [(1, "amygdala"), (14, "hippocampus")] :=
  (dict_from_file_wellformed "1:amygdala\n14 : hippocampus\n" ':'
    (by decide) (by decide)).2

/-- C10: a mask-values file with repeated integer keys parses without
error, and each key ends up bound to the trimmed value of the last
line carrying it (later lines silently overwrite earlier ones); key
uniqueness is never checked.  In particular `"1:amygdala\n1:hippocampus\n"`
yields `{1 : "hippocampus"}`. -/
theorem dict_from_file_duplicate_keys (content : String) (sep : Char)
    (h1 : ∀ l ∈ splitLinesPy content, (parseLine sep l).isSome) :
    (∃ m, dict_from_file content sep = .ok m ∧
      ∀ k, dictGet m k = lastBinding ((splitLinesPy content).filterMap (parseLine sep)) k)
    ∧ dict_from_file "1:amygdala\n1:hippocampus\n" ':' = .ok [(1, "hippocampus")] := by
  constructor
  · obtain ⟨m, hm⟩ := dictFromLines_ok sep (splitLinesPy content) [] h1
    refine ⟨m, hm, ?_⟩
    intro k
    have hget := dictFromLines_get sep (splitLinesPy content) [] m hm k
    rw [hget]
    cases lastBinding ((splitLinesPy content).filterMap (parseLine sep)) k with
    | none => rfl
    | some v => rfl
  · rfl

theorem dict_from_file_duplicate_keys_witness :
    dict_from_file "1:amygdala\n1:hippocampus\n" ':' = .ok [(1, "hippocampus")] :=
  (dict_from_file_duplicate_keys "1:amygdala\n1:hippocampus\n" ':' (by decide)).2

/-- C9 counterexample: a parameter file lacking the expected
`binWidth` field does NOT propagate an uncaught failure —
`get_parameter_value` catches the `KeyError` and returns Python
`None`, and the run continues, embedding `"None"` in the verbose
output root. -/
theorem parameter_key_error_is_caught :
    get_parameter_value [("setting", [("other", 7)])] "setting" "binWidth" = none
    ∧ verbose_output_location "/out" [("setting", [("other", 7)])] ⟨2024, 1, 5⟩
        = "/out/05-January-2024_BinWidth_None" :=
  ⟨rfl, rfl⟩

/-- C9 (amended): malformed mask-values content (a line without the
separator or with a non-integer key) makes `dict_from_file` fail with
the uncaught error, terminating the run; but a parameter file lacking
the expected `setting`/`binWidth` key is specially handled:
`get_parameter_value` catches the `KeyError` and returns `None`, and
the run continues with `"None"` embedded in the output root name. -/
theorem malformed_mapping_raises_param_key_caught (content : String) (sep : Char)
    (h : ∃ l ∈ splitLinesPy content, parseLine sep l = none) :
    dict_from_file content sep = .error ()
    ∧ (∀ (data : ParamData) (s fd : String),
        alookup data s = none → get_parameter_value data s fd = none)
    ∧ (∀ (data : ParamData) (s fd : String) (sub : List (String × Int)),
        alookup data s = some sub → alookup sub fd = none →
        get_parameter_value data s fd = none)
    ∧ verbose_output_location "/out" [("setting", [])] ⟨2024, 1, 5⟩
        = "/out/05-January-2024_BinWidth_None" := by
  refine ⟨dictFromLines_error sep (splitLinesPy content) [] h, ?_, ?_, rfl⟩
  · intro data s fd hnone
    unfold get_parameter_value
    rw [hnone]
  · intro data s fd sub hsub hnone
    unfold get_parameter_value
    rw [hsub]
    dsimp only
    rw [hnone]

theorem malformed_mapping_raises_witness :
    dict_from_file "nocolon\n" ':' = .error () :=
  (malformed_mapping_raises_param_key_caught "nocolon\n" ':' (by decide)).1

/-- C7: the verbose output root is the base path joined with
`"<zero-padded day>-<month name>-<year>_BinWidth_<binWidth>"`; in
particular base `"/out"`, date 2024-01-05 and `setting.binWidth = 25`
give `"/out/05-January-2024_BinWidth_25"`. -/
theorem verbose_output_location_spec (base : String) (params : ParamData) (d : Date) (w : Int)
    (h : get_parameter_value params "setting" "binWidth" = some w) :
    verbose_output_location base params d
      = pathJoin base (pad2 d.day ++ "-" ++ monthName d.month ++ "-" ++ toString d.year
          ++ "_BinWidth_" ++ toString w)
    ∧ verbose_output_location "/out" [("setting", [("binWidth", 25)])] ⟨2024, 1, 5⟩
        = "/out/05-January-2024_BinWidth_25" := by
  constructor
  · unfold verbose_output_location date_today
    rw [h]
    rfl
  · rfl

theorem verbose_output_location_witness :
    verbose_output_location "/out" [("setting", [("binWidth", 25)])] ⟨2024, 1, 5⟩
      = "/out/05-January-2024_BinWidth_25" :=
  (verbose_output_location_spec "/out" [("setting", [("binWidth", 25)])] ⟨2024, 1, 5⟩ 25 rfl).2

/-- C4: the filename resolver considers only the non-directory entries
of the directory; when the first entry whose name starts with
`prefix + ID` is confirmed by the existence re-check it is returned as
found with its full path, and when no entry qualifies the result is
not-found with no further action.  In particular a directory holding
`sub-01_T1.nii` with empty prefix resolves `"sub-01"` to that file and
`"sub-02"` to not-found, and an entry that is itself a directory is
never selected. -/
theorem resolve_target_filepath_spec :
    (∀ (fs : FS) (dir : String) (pfx : Option String) (ID t : String),
      firstMatch fs dir pfx ID = some t →
      fs.pathExists (pathJoin dir t) = true →
      resolve_target_filepath fs dir pfx ID = .found (pathJoin dir t))
    ∧ (∀ (fs : FS) (dir : String) (pfx : Option String) (ID : String),
      firstMatch fs dir pfx ID = none →
      resolve_target_filepath fs dir pfx ID = .notFound)
    ∧ resolve_target_filepath exDirFS "/d" (some "") "sub-01" = .found "/d/sub-01_T1.nii"
    ∧ resolve_target_filepath exDirFS "/d" (some "") "sub-02" = .notFound
    ∧ resolve_target_filepath exDirOnlyFS "/d" (some "") "sub-03" = .notFound := by
  refine ⟨?_, ?_, rfl, rfl, rfl⟩
  · intro fs dir pfx ID t h1 h2
    unfold resolve_target_filepath
    rw [h1]
    dsimp only
    rw [if_pos h2]
  · intro fs dir pfx ID h
    unfold resolve_target_filepath
    rw [h]

theorem resolve_target_filepath_spec_witness :
    resolve_target_filepath exDirFS "/d" (some "") "sub-01"
      = .found (pathJoin "/d" "sub-01_T1.nii") :=
  resolve_target_filepath_spec.1 exDirFS "/d" (some "") "sub-01" "sub-01_T1.nii" rfl rfl

/-- C5: when a directory entry matches `prefix + ID` but the
existence re-check of the joined path fails, the resolver takes the
`exit(3)` path, and a run whose participant loop reaches that
resolution terminates as a whole with that exit condition — it is not
caught, not retried, and is not a not-found result. -/
theorem resolver_vanished_fatal (fs : FS) (dir : String) (pfx : Option String) (ID t : String)
    (h1 : firstMatch fs dir pfx ID = some t)
    (h2 : fs.pathExists (pathJoin dir t) = false) :
    resolve_target_filepath fs dir pfx ID = .exitCode 3
    ∧ ∀ (volumes : String) (vpfx : Option String)
        (extr : String → String → Int → Except String (List (String × String)))
        (outLoc : String) (masks : List (Int × String)) (σ : Store) (rest : List String),
        runLoop ⟨fs, dir, volumes, pfx, vpfx, extr⟩ outLoc masks (ID :: rest) σ
          = .error 3 := by
  have hres : resolve_target_filepath fs dir pfx ID = .exitCode 3 := by
    unfold resolve_target_filepath
    rw [h1]
    dsimp only
    rw [if_neg (by rw [h2]; exact Bool.false_ne_true)]
  refine ⟨hres, ?_⟩
  intro volumes vpfx extr outLoc masks σ rest
  unfold runLoop processParticipant
  dsimp only
  rw [hres]

theorem resolver_vanished_fatal_witness :
    resolve_target_filepath ghostFS "/roi" (some "") "sub-01" = .exitCode 3
    ∧ runLoop ⟨ghostFS, "/roi", "/vol", some "", some "", exExtractor⟩
        "/out" [] ["sub-01"] [] = .error 3 := by
  have h := resolver_vanished_fatal ghostFS "/roi" (some "") "sub-01" "sub-01_roi.nii" rfl rfl
  exact ⟨h.1, h.2 "/vol" (some "") exExtractor "/out" [] [] []⟩

/-- C6: a participant for whom the ROI file or the volume file
resolves to not-found (and neither resolution takes the fatal exit
path) is skipped: the loop iteration returns the store unchanged —
so no feature-file content is created for the participant — and
makes no extractor call. -/
theorem missing_input_skips (env : Env) (outLoc : String) (masks : List (Int × String))
    (σ : Store) (ppt : String)
    (hR : (resolve_target_filepath env.fs env.regions env.regionPfx ppt).isExit = false)
    (hV : (resolve_target_filepath env.fs env.volumes env.volPfx ppt).isExit = false)
    (hmiss : resolve_target_filepath env.fs env.regions env.regionPfx ppt = .notFound
      ∨ resolve_target_filepath env.fs env.volumes env.volPfx ppt = .notFound) :
    processParticipant env outLoc masks σ ppt = .ok (σ, []) := by
  unfold processParticipant
  cases hRr : resolve_target_filepath env.fs env.regions env.regionPfx ppt with
  | exitCode c => rw [hRr] at hR; simp [ResolveResult.isExit] at hR
  | notFound =>
    cases hVr : resolve_target_filepath env.fs env.volumes env.volPfx ppt with
    | exitCode c => rw [hVr] at hV; simp [ResolveResult.isExit] at hV
    | notFound => rfl
    | found p => rfl
  | found pROI =>
    cases hVr : resolve_target_filepath env.fs env.volumes env.volPfx ppt with
    | exitCode c => rw [hVr] at hV; simp [ResolveResult.isExit] at hV
    | notFound => rfl
    | found pT1 =>
      rcases hmiss with hm | hm
      · rw [hRr] at hm; cases hm
      · rw [hVr] at hm; cases hm

theorem missing_input_skips_witness :
    processParticipant missEnv "/out" [(1, "amy")] [] "sub-01" = .ok ([], []) :=
  missing_input_skips missEnv "/out" [(1, "amy")] [] "sub-01" rfl rfl (Or.inl rfl)

/-- C2: for a region whose extractor call succeeds, the loop body
appends to the participant's feature file — in append mode, keeping
existing content — a block whose lines are exactly one `$[name:index]`
header, then one `feature:value` line per entry of the result mapping
in order, then exactly one `MASKBREAK` sentinel; no other file is
touched. -/
theorem success_block (env : Env) (T1path ROIpath fp : String) (σ : Store)
    (idx : Int) (maskName : String) (feats : List (String × String))
    (h : env.extractor T1path ROIpath idx = .ok feats) :
    storeGet (processMask env T1path ROIpath fp σ (idx, maskName)) fp
      = some ((storeGet σ fp).getD ""
          ++ "\n" ++ joinLines (sectionHeader maskName idx :: feats.map featLine ++ ["MASKBREAK"]) ++ "\n")
    ∧ ∀ q, q ≠ fp →
        storeGet (processMask env T1path ROIpath fp σ (idx, maskName)) q = storeGet σ q := by
  constructor
  · unfold processMask
    dsimp only
    rw [h]
    dsimp only
    rw [storeGet_append_self, successText_spec]
    simp only [String.append_assoc]
  · intro q hq
    unfold processMask
    dsimp only
    rw [h]
    exact storeGet_append_ne σ fp _ q hq

theorem success_block_witness :
    storeGet (processMask exEnv "/vol/sub-01_T1.nii" "/roi/sub-01_roi.nii"
        "/out/sub-01_Features/sub-01_FeatureValues.txt" [] (1, "amy"))
      "/out/sub-01_Features/sub-01_FeatureValues.txt"
      = some "\n$[amy:1]\nf1:0.5\nMASKBREAK\n" := by
  have h := (success_block exEnv "/vol/sub-01_T1.nii" "/roi/sub-01_roi.nii"
    "/out/sub-01_Features/sub-01_FeatureValues.txt" [] 1 "amy" [("f1", "0.5")] rfl).1
  rw [h]
  rfl

/-- C3: for a region whose extractor call raises the degenerate-mask
value error, the loop body appends exactly one line to the feature
file — the `$MASKERROR[name:index] <message>` marker, which is
neither a `MASKBREAK` sentinel nor any `$[...]` section header — and
the mask loop still performs the extractor calls of all remaining
regions of the same participant; no other file is touched. -/
theorem maskerror_block (env : Env) (T1path ROIpath fp : String) (σ : Store)
    (idx : Int) (maskName msg : String) (rest : List (Int × String))
    (h : env.extractor T1path ROIpath idx = .error msg) :
    storeGet (processMask env T1path ROIpath fp σ (idx, maskName)) fp
      = some ((storeGet σ fp).getD ""
          ++ "\n" ++ joinLines [maskErrorLine maskName idx msg] ++ "\n")
    ∧ maskErrorLine maskName idx msg ≠ "MASKBREAK"
    ∧ (∀ (n2 : String) (i2 : Int), maskErrorLine maskName idx msg ≠ sectionHeader n2 i2)
    ∧ (processMasks env T1path ROIpath fp ((idx, maskName) :: rest) σ).2
        = (T1path, ROIpath, idx) :: rest.map (fun m => (T1path, ROIpath, m.1))
    ∧ ∀ q, q ≠ fp →
        storeGet (processMask env T1path ROIpath fp σ (idx, maskName)) q = storeGet σ q := by
  refine ⟨?_, maskErrorLine_ne_maskbreak maskName idx msg,
    fun n2 i2 => maskErrorLine_ne_header maskName idx msg n2 i2, ?_, ?_⟩
  · unfold processMask
    dsimp only
    rw [h]
    dsimp only
    rw [storeGet_append_self, errorText_spec]
    simp only [String.append_assoc]
  · rw [processMasks_trace]
    simp
  · intro q hq
    unfold processMask
    dsimp only
    rw [h]
    exact storeGet_append_ne σ fp _ q hq

theorem maskerror_block_witness :
    storeGet (processMask exEnv "/vol/sub-01_T1.nii" "/roi/sub-01_roi.nii"
        "/out/sub-01_Features/sub-01_FeatureValues.txt" [] (2, "hip"))
      "/out/sub-01_Features/sub-01_FeatureValues.txt"
      = some "\n$MASKERROR[hip:2] mask too small\n" := by
  have h := (maskerror_block exEnv "/vol/sub-01_T1.nii" "/roi/sub-01_roi.nii"
    "/out/sub-01_Features/sub-01_FeatureValues.txt" [] 2 "hip" "mask too small" [] rfl).1
  rw [h]
  rfl

/-- C1: if a run of the extraction loop completes with final store
`s.1`, then a second run over the same participant list starting from
that store leaves it byte-identical and performs no extractor call at
all; and every participant whose feature file exists in the final
store is skipped entirely (store unchanged, no call) by a loop
iteration starting there. -/
theorem extraction_loop_idempotent (env : Env) (outLoc : String) (masks : List (Int × String))
    (ppts : List String) (σ0 : Store) (s : Store × List Call)
    (h : runLoop env outLoc masks ppts σ0 = .ok s) :
    runLoop env outLoc masks ppts s.1 = .ok (s.1, [])
    ∧ ∀ ppt ∈ ppts, (storeGet s.1 (featurePath outLoc ppt)).isSome →
        processParticipant env outLoc masks s.1 ppt = .ok (s.1, []) := by
  constructor
  · exact runLoop_revisit env outLoc masks ppts σ0 s h s.1 (fun q hq => hq)
  · intro ppt hmem hfile
    obtain ⟨σa, sa, hp⟩ := runLoop_mem env outLoc masks ppts σ0 s ppt h hmem
    exact processParticipant_skip env outLoc masks σa ppt sa s.1 hp hfile

theorem extraction_loop_idempotent_witness :
    runLoop exEnv "/out" [(1, "amy")] ["sub-01"] exRunStore = .ok (exRunStore, []) :=
  (extraction_loop_idempotent exEnv "/out" [(1, "amy")] ["sub-01"] []
    (exRunStore, [("/vol/sub-01_T1.nii", "/roi/sub-01_roi.nii", 1)]) rfl).1
